import Mathlib

/-!
# CloudFlux chunked-upload engine: a shallow embedding

This file embeds the core of the CloudFlux chunked upload system in Lean 4
and proves properties of it.  The embedding follows two source files:

* `contexts/UploaderContext.js` — the client-side upload scheduler and chunk
  dispatcher (`prepareFiles`, `startUpload`, `parallelChunkUpload`,
  `uploadChunk`, `cancelUpload`, `cancelAllUploads`, `updateFileStatus`);
* `pages/api/upload-chunk.js` (current revision, the one with the
  `cancelledUploads` set and `fileKeyMap`) — the server-side multipart
  session manager (`handler`, `generateFileKey`, `getFileUrl`,
  `deleteFileFromCloud`).

Conventions of the embedding:

* Machine integers are `Nat` (sizes, chunk counts and indices never go
  negative in the source).
* File bytes are `List Nat`; `Blob.slice(start, end)` is `jsSlice`.
* The server's JS object / `Set` / `Map` singletons (`multipartUploads`,
  `cancelledUploads`, `fileKeyMap`) are association lists and a list-set with
  the same get/set/delete/has semantics.
* The object store (AWS branch of the source; the claims are about the
  object-store provider) is modelled explicitly as a `CloudState`: the set of
  in-progress multipart uploads, the parts uploaded so far, and the
  finalized objects.  `CompleteMultipartUpload` concatenates the listed
  parts in list order; `AbortMultipartUpload` discards the in-progress
  upload; `DeleteObject` removes a stored object.
* Nondeterministic inputs of the environment (the upload id minted by the
  store, `crypto.randomBytes(4).toString("hex")`, `new Date()`, the ETag the
  store returns for a part body) are passed as explicit parameters.
* The client's asynchronous control flow is embedded as pure functions that
  read oracle functions for everything observed from the outside (the file
  status seen at each cancellation pre-check, the outcome of each network
  attempt of each chunk) and that return the trace of externally visible
  actions (`ClientAction`) the code performs.
-/

namespace CloudFlux

/-! ## Client chunk plan (`contexts/UploaderContext.js`, `parallelChunkUpload`) -/

/-- `const totalChunks = Math.ceil(fileToUpload.size / CHUNK_SIZE)`
(`parallelChunkUpload`).  For naturals with `0 < chunkSize`,
`(size + chunkSize - 1) / chunkSize` is exactly `⌈size / chunkSize⌉`. -/
def totalChunks (size chunkSize : Nat) : Nat :=
  (size + chunkSize - 1) / chunkSize

/-- `const start = chunkIndex * CHUNK_SIZE` (`parallelChunkUpload`). -/
def chunkStart (chunkSize i : Nat) : Nat := i * chunkSize

/-- `const end = Math.min(start + CHUNK_SIZE, fileToUpload.size)`
(`parallelChunkUpload`). -/
def chunkEnd (size chunkSize i : Nat) : Nat :=
  min (chunkStart chunkSize i + chunkSize) size

/-- `Blob.slice(start, end)` / `Array.slice(start, end)`: the bytes from
index `start` (inclusive) to `end` (exclusive). -/
def jsSlice {α : Type} (l : List α) (s e : Nat) : List α :=
  (l.drop s).take (e - s)

/-- `const partNumber = parseInt(currentChunk) + 1; // S3 parts start from 1`
(`pages/api/upload-chunk.js`, upload action). -/
def serverPartNumber (currentChunk : Nat) : Nat := currentChunk + 1

/-! ## Server key generation (`pages/api/upload-chunk.js`, `generateFileKey`) -/

/-- A character matched by the JavaScript regex class `\w` (ASCII). -/
def jsIsWordChar (c : Char) : Bool :=
  ('a' ≤ c && c ≤ 'z') || ('A' ≤ c && c ≤ 'Z') || ('0' ≤ c && c ≤ '9') || c = '_'

/-- A character matched by the JavaScript regex class `\s` (ASCII core:
space, tab, newline, carriage return, vertical tab, form feed). -/
def jsIsSpace (c : Char) : Bool :=
  c = ' ' || c = '\t' || c = '\n' || c = '\r' || c = '\x0b' || c = '\x0c'

/-- A character kept by `fileName.replace(/[^\w\s.-]/g, "")`. -/
def keepSafe (c : Char) : Bool :=
  jsIsWordChar c || jsIsSpace c || c = '.' || c = '-'

/-- Helper for `replace(/\s+/g, "-")`: the flag records whether we are
inside a whitespace run whose dash has already been emitted. -/
def collapseWhitespaceGo : Bool → List Char → List Char
  | _, [] => []
  | inRun, c :: rest =>
    if jsIsSpace c then
      if inRun then collapseWhitespaceGo true rest
      else '-' :: collapseWhitespaceGo true rest
    else c :: collapseWhitespaceGo false rest

/-- `replace(/\s+/g, "-")`: every maximal nonempty run of whitespace becomes
one dash. -/
def collapseWhitespace (l : List Char) : List Char :=
  collapseWhitespaceGo false l

/-- `const cleanName = fileName.replace(/[^\w\s.-]/g, "").replace(/\s+/g, "-")`. -/
def sanitizeFileName (fileName : String) : String :=
  ⟨collapseWhitespace (fileName.data.filter keepSafe)⟩

/-- `String(n).padStart(2, "0")`. -/
def padTwo (n : Nat) : String :=
  if n < 10 then "0" ++ toString n else toString n

/-- `generateFileKey` of the current `pages/api/upload-chunk.js`:

```js
return `uploads/${year}-${month}-${day}/${uniqueId}-${cleanName}`;
```

where `year/month/day` come from `new Date()`, `uniqueId` is
`require("crypto").randomBytes(4).toString("hex")` (8 hex characters) and
`cleanName = sanitizeFileName fileName`.  The date and the random id are
explicit parameters of the embedding. -/
def generateFileKey (year month day : Nat) (uniqueId : String)
    (fileName : String) : String :=
  "uploads/" ++ toString year ++ "-" ++ padTwo month ++ "-" ++ padTwo day
    ++ "/" ++ uniqueId ++ "-" ++ sanitizeFileName fileName

/-- The key form asserted by the specification (spec §6: "Object storage key
convention: `uploads/<YYYY>/<MM>/<DD>/<8-hex-or-equivalent>-<sanitized-name>`").
This definition follows the spec's words, for comparison with
`generateFileKey`, which is translated from the source. -/
def specClaimedKey (year month day : Nat) (uniqueId : String)
    (fileName : String) : String :=
  "uploads/" ++ toString year ++ "/" ++ padTwo month ++ "/" ++ padTwo day
    ++ "/" ++ uniqueId ++ "-" ++ sanitizeFileName fileName

/-! ## Server state (`pages/api/upload-chunk.js`) -/

/-- One element of `multipartUploads[fileId].parts`:
`{ PartNumber: partNumber, ETag: response.ETag }`. -/
structure PartRecord where
  PartNumber : Nat
  ETag : String
deriving DecidableEq

/-- The comparator `(a, b) => a.PartNumber - b.PartNumber` used by
`parts.sort(...)` in the complete action, as a `Bool`-valued `le`. -/
def partLe (a b : PartRecord) : Bool :=
  decide (a.PartNumber ≤ b.PartNumber)

/-- `parts.sort((a, b) => a.PartNumber - b.PartNumber)`: a stable ascending
sort by part number (`Array.prototype.sort` is stable, as is `mergeSort`). -/
def sortParts (ps : List PartRecord) : List PartRecord :=
  ps.mergeSort partLe

/-- `multipartUploads[fileId] = { uploadId, parts, fileKey }`. -/
structure UploadSession where
  uploadId : String
  parts : List PartRecord
  fileKey : String
deriving DecidableEq

/-- The server's module-level mutable state: the `multipartUploads` object,
the `cancelledUploads` set and the `fileKeyMap` map, each embedded as a list
with the same get/set/delete/has semantics. -/
structure ServerState where
  multipartUploads : List (String × UploadSession)
  cancelledUploads : List String
  fileKeyMap : List (String × String)
deriving DecidableEq

/-- Association-list read (`obj[k]` / `map.get(k)`). -/
def getAssoc {α : Type} (m : List (String × α)) (k : String) : Option α :=
  match m.find? (fun p => p.1 = k) with
  | some p => some p.2
  | none => none

/-- Association-list write (`obj[k] = v` / `map.set(k, v)`): any previous
binding of `k` is replaced. -/
def setAssoc {α : Type} (m : List (String × α)) (k : String) (v : α) :
    List (String × α) :=
  (k, v) :: m.filter (fun p => ¬ p.1 = k)

/-- Association-list delete (`delete obj[k]` / `map.delete(k)`). -/
def eraseAssoc {α : Type} (m : List (String × α)) (k : String) :
    List (String × α) :=
  m.filter (fun p => ¬ p.1 = k)

/-- `Set.add(k)`. -/
def insertSet (s : List String) (k : String) : List String :=
  if k ∈ s then s else k :: s

/-- `Set.delete(k)`. -/
def eraseSet (s : List String) (k : String) : List String :=
  s.filter (fun x => ¬ x = k)

/-! ## The object store (AWS branch), modelled explicitly -/

/-- The provider-side state: in-progress multipart uploads (object key and
upload id), the parts uploaded to each multipart upload (last write per
`(uploadId, partNumber)` wins), and the finalized objects.  This models the
S3 SDK commands the handler issues; the store itself is an external
collaborator of the repository. -/
structure CloudState where
  openMultipart : List (String × String)
  uploadedParts : List (String × Nat × List Nat)
  objects : List (String × List Nat)

/-- `CreateMultipartUploadCommand`: the store opens a multipart upload at
`key` and mints `uploadId`. -/
def createMultipart (c : CloudState) (key uploadId : String) : CloudState :=
  { c with openMultipart := (key, uploadId) :: c.openMultipart }

/-- `UploadPartCommand`: the store records the bytes for
`(uploadId, partNumber)`, replacing any earlier body for the same pair. -/
def uploadPartCloud (c : CloudState) (uploadId : String) (partNumber : Nat)
    (bytes : List Nat) : CloudState :=
  let kept := c.uploadedParts.filter
    (fun t => ¬ (t.1 = uploadId ∧ t.2.1 = partNumber))
  { c with uploadedParts := (uploadId, partNumber, bytes) :: kept }

/-- The bytes the store holds for `(uploadId, partNumber)` (empty if none). -/
def lookupPart (c : CloudState) (uploadId : String) (partNumber : Nat) :
    List Nat :=
  match c.uploadedParts.find? (fun t => t.1 = uploadId ∧ t.2.1 = partNumber) with
  | some t => t.2.2
  | none => []

/-- `CompleteMultipartUploadCommand`: the store assembles the object at `key`
by concatenating the bodies of the listed parts in list order, and closes
the multipart upload. -/
def completeMultipart (c : CloudState) (key uploadId : String)
    (parts : List PartRecord) : CloudState :=
  let stillOpen := c.openMultipart.filter (fun p => ¬ (p.1 = key ∧ p.2 = uploadId))
  let body := (parts.map (fun p => lookupPart c uploadId p.PartNumber)).flatten
  { c with openMultipart := stillOpen,
           objects := (key, body) :: eraseAssoc c.objects key }

/-- `AbortMultipartUploadCommand`: the store discards the in-progress
multipart upload at `(key, uploadId)`. -/
def abortMultipart (c : CloudState) (key uploadId : String) : CloudState :=
  { c with openMultipart :=
      c.openMultipart.filter (fun p => ¬ (p.1 = key ∧ p.2 = uploadId)) }

/-- `DeleteObjectCommand` via `deleteFileFromCloud`: the store removes the
object at `key` (errors are caught and logged by the helper, never failing
the request). -/
def deleteObjectCloud (c : CloudState) (key : String) : CloudState :=
  { c with objects := eraseAssoc c.objects key }

/-! ## The action protocol and the request handler -/

/-- The `action` discriminator of the POST body. -/
inductive Action where
  | initializeAction
  | status
  | upload
  | complete
  | abort
deriving DecidableEq

/-- The request body fields the handler destructures.  `chunkData` arrives
base64 encoded in JS and is immediately decoded to bytes
(`Buffer.from(chunkData, "base64")`); the embedding carries the decoded
bytes.  `uploadId` and `fileKey` are absent in some requests, hence
`Option` (JS `undefined`).  `totalChunks` is destructured but never read by
the AWS branch. -/
structure Request where
  action : Action
  fileId : String
  fileName : String
  fileType : String
  totalChunks : Nat
  currentChunk : Nat
  chunkData : List Nat
  uploadId : Option String
  fileKey : Option String

/-- The JSON responses the AWS branch of the handler can produce, together
with their HTTP status codes. -/
inductive Response where
  /-- 409 `{ success: false, error: "Upload was cancelled", cancelled: true }` -/
  | cancelledConflict
  /-- 200 `{ success: true, uploadId, fileKey }` -/
  | initialized (uploadId fileKey : String)
  /-- 200 `{ success: true, cancelled }` -/
  | statusReport (cancelled : Bool)
  /-- 200 `{ success: true, partNumber, partsReceived }` -/
  | partAccepted (partNumber partsReceived : Nat)
  /-- 400 `{ success: false, error: "Upload session not found" }` -/
  | sessionNotFound
  /-- 200 `{ success: true, key, url }` -/
  | completed (key url : String)
  /-- 200 `{ success: true, message }` -/
  | aborted (message : String)
  /-- 400 `{ success: false, error: "Invalid action" }` -/
  | invalidAction
deriving DecidableEq

/-- The HTTP status code of a response. -/
def Response.statusCode : Response → Nat
  | .cancelledConflict => 409
  | .sessionNotFound => 400
  | .invalidAction => 400
  | _ => 200

/-- The `success` field of a response. -/
def Response.success : Response → Bool
  | .cancelledConflict => false
  | .sessionNotFound => false
  | .invalidAction => false
  | _ => true

/-- `getFileUrl` (AWS branch):
`https://${bucketName}.s3.${region}.amazonaws.com/${fileKey}`. -/
def getFileUrl (bucketName region fileKey : String) : String :=
  "https://" ++ bucketName ++ ".s3." ++ region ++ ".amazonaws.com/" ++ fileKey

/-- The environment read by one invocation of the handler: configuration,
the current date, and the values minted by `crypto` and by the store. -/
structure ServerEnv where
  bucketName : String
  region : String
  /-- `new Date()` components used by `generateFileKey`. -/
  year : Nat
  month : Nat
  day : Nat
  /-- `require("crypto").randomBytes(4).toString("hex")`. -/
  randomHex : String
  /-- The `UploadId` the store returns from `CreateMultipartUploadCommand`. -/
  freshUploadId : String
  /-- The `ETag` the store returns from `UploadPartCommand` for a body. -/
  etag : List Nat → String

/-- The request handler of the current `pages/api/upload-chunk.js`, AWS
branch (`cloudProvider === "aws"`, the object-store provider of the claims),
embedded as a pure state transformer over the server's module-level state
and the modelled store.  Mirrors the source top to bottom:

1. the `action !== "abort" && cancelledUploads.has(fileId)` guard (409);
2. `initialize`: delete the id from `cancelledUploads`, generate a key,
   record it in `fileKeyMap`, open a provider multipart upload, record the
   session, answer `{ uploadId, fileKey }`;
3. `status`: report `cancelledUploads.has(fileId)`;
4. `upload`: 400 if no session; otherwise upload the part body to the store
   under `parseInt(currentChunk) + 1` (using the *request's* `uploadId` and
   `fileKey` for the store call), push `{ PartNumber, ETag }` onto the
   session's `parts`, answer with the new list length;
5. `complete`: 400 if no session; otherwise sort the accumulated parts by
   part number, have the store assemble the object, drop the session and
   the `fileKeyMap` entry, answer `{ key, url }`;
6. `abort`: add the id to `cancelledUploads`; resolve the target key from
   the request or `fileKeyMap`; if neither a session nor a key is known,
   answer success ("Upload marked as cancelled"); otherwise abort the
   provider upload when an upload id is known, delete any object at the
   resolved key, drop the session and the map entry, and answer success
   ("Upload aborted and file cleanup attempted").  Store errors during
   cleanup are caught and logged in the source, so the response does not
   depend on them. -/
def handler (env : ServerEnv) (st : ServerState) (cloud : CloudState)
    (req : Request) : ServerState × CloudState × Response :=
  if req.action ≠ Action.abort ∧ req.fileId ∈ st.cancelledUploads then
    (st, cloud, .cancelledConflict)
  else
    match req.action with
    | .initializeAction =>
      let st1 := { st with cancelledUploads := eraseSet st.cancelledUploads req.fileId }
      let key := generateFileKey env.year env.month env.day env.randomHex req.fileName
      let st2 := { st1 with fileKeyMap := setAssoc st1.fileKeyMap req.fileId key }
      let cloud1 := createMultipart cloud key env.freshUploadId
      let sess : UploadSession := ⟨env.freshUploadId, [], key⟩
      let st3 := { st2 with multipartUploads := setAssoc st2.multipartUploads req.fileId sess }
      (st3, cloud1, .initialized env.freshUploadId key)
    | .status =>
      (st, cloud, .statusReport (decide (req.fileId ∈ st.cancelledUploads)))
    | .upload =>
      match getAssoc st.multipartUploads req.fileId with
      | none => (st, cloud, .sessionNotFound)
      | some sess =>
        let pn := serverPartNumber req.currentChunk
        let cloud1 := uploadPartCloud cloud (req.uploadId.getD "") pn req.chunkData
        let sess1 := { sess with parts := sess.parts ++ [⟨pn, env.etag req.chunkData⟩] }
        let st1 := { st with multipartUploads := setAssoc st.multipartUploads req.fileId sess1 }
        (st1, cloud1, .partAccepted pn sess1.parts.length)
    | .complete =>
      match getAssoc st.multipartUploads req.fileId with
      | none => (st, cloud, .sessionNotFound)
      | some sess =>
        let sorted := sortParts sess.parts
        let cloud1 := completeMultipart cloud sess.fileKey sess.uploadId sorted
        let st1 := { st with
          multipartUploads := eraseAssoc st.multipartUploads req.fileId,
          fileKeyMap := eraseAssoc st.fileKeyMap req.fileId }
        (st1, cloud1, .completed sess.fileKey (getFileUrl env.bucketName env.region sess.fileKey))
    | .abort =>
      let st1 := { st with cancelledUploads := insertSet st.cancelledUploads req.fileId }
      let uploadDetails := getAssoc st1.multipartUploads req.fileId
      let targetFileKey : Option String :=
        match req.fileKey with
        | some k => some k
        | none => getAssoc st1.fileKeyMap req.fileId
      if uploadDetails.isNone ∧ targetFileKey.isNone then
        (st1, cloud, .aborted "Upload marked as cancelled")
      else
        let actualFileKey : String :=
          match uploadDetails with
          | some d => d.fileKey
          | none => targetFileKey.getD ""
        let actualUploadId : Option String :=
          match uploadDetails with
          | some d => some d.uploadId
          | none => req.uploadId
        let cloud1 :=
          match actualUploadId with
          | some uid => abortMultipart cloud actualFileKey uid
          | none => cloud
        let cloud2 := deleteObjectCloud cloud1 actualFileKey
        let st2 := { st1 with
          multipartUploads := eraseAssoc st1.multipartUploads req.fileId,
          fileKeyMap := eraseAssoc st1.fileKeyMap req.fileId }
        (st2, cloud2, .aborted "Upload aborted and file cleanup attempted")

/-! ## Client scheduler state (`contexts/UploaderContext.js`) -/

/-- `FILE_STATUS`. -/
inductive FileStatus where
  | pending
  | uploading
  | paused
  | completed
  | failed
  | cancelled
deriving DecidableEq

/-- One record of `selectedFiles` (the fields touched by the scheduler;
`file`, `type`, `lastModified`, `addedAt` are carried opaquely by the
source and are not needed by the claims). -/
structure UploadableFile where
  id : String
  name : String
  size : Nat
  status : FileStatus
  progress : Nat
  error : Option String
  retryCount : Nat
deriving DecidableEq

/-- `updateFileStatus(fileId, status, progress = null, error = null)`: maps
over `selectedFiles`; for the record whose `id` matches it sets `status`,
sets `progress`/`error` only when non-null, and increments `retryCount`
exactly when the new status is `FAILED`. -/
def updateFileStatus (files : List UploadableFile) (fileId : String)
    (status : FileStatus) (progress : Option Nat) (error : Option String) :
    List UploadableFile :=
  files.map fun f =>
    if f.id = fileId then
      { f with
        status := status,
        progress := progress.getD f.progress,
        error := match error with | some e => some e | none => f.error,
        retryCount := if status = FileStatus.failed then f.retryCount + 1 else f.retryCount }
    else f

/-- The externally visible actions of the client: the five protocol
requests it issues and the status writes it performs via
`updateFileStatus`. -/
inductive ClientAction where
  | initializeReq (fileId : String)
  | statusReq (fileId : String)
  | uploadReq (fileId : String) (chunkIndex : Nat)
  | completeReq (fileId : String)
  | abortReq (fileId : String)
  | setStatus (fileId : String) (status : FileStatus) (progress : Option Nat)
deriving DecidableEq

/-- `cancelUpload(fileId)`: immediately marks the file cancelled locally,
then notifies the server with one `abort` action (the local state stays
cancelled whether or not the notify succeeds). -/
def cancelUpload (files : List UploadableFile) (fileId : String) :
    List UploadableFile × List ClientAction :=
  (updateFileStatus files fileId FileStatus.cancelled none none,
   [ClientAction.abortReq fileId])

/-- `cancelAllUploads()`: sets `isUploading` to `false` (first component),
marks every currently-`uploading` file cancelled, and notifies the server
with one `abort` per such file. -/
def cancelAllUploads (files : List UploadableFile) :
    Bool × List UploadableFile × List ClientAction :=
  let uploadingFiles := files.filter (fun f => f.status = FileStatus.uploading)
  (false,
   uploadingFiles.foldl
     (fun fs f => updateFileStatus fs f.id FileStatus.cancelled none none) files,
   uploadingFiles.map (fun f => ClientAction.abortReq f.id))

/-- The batches `startUpload`'s `uploadBatch` recursion actually processes:
`filesToUpload.slice(batch * conc, min((batch + 1) * conc, n))` until the
slice is empty.  The recursion's only stopping condition is an empty slice;
it never consults the `isUploading` flag.  (With `conc = 0` the first slice
is already empty and nothing is processed, as in the source.) -/
def uploadBatches {α : Type} : Nat → List α → List (List α)
  | _, [] => []
  | 0, _ :: _ => []
  | conc + 1, a :: l =>
    (a :: l).take (conc + 1) :: uploadBatches (conc + 1) ((a :: l).drop (conc + 1))
termination_by _ l => l.length
decreasing_by
  simp only [List.length_drop, List.length_cons]
  omega

/-! ## The per-chunk retry loop (`uploadChunk`) -/

/-- What one attempt of `uploadChunk`'s `while` loop observes: the attempt
succeeds, throws a transient transport/HTTP error, or observes cancellation
(locally via `selectedFiles`, via the periodic server `status` poll, or via
a `cancelled: true` upload response — all of which throw the
`UPLOAD_CANCELLED` sentinel). -/
inductive AttemptOutcome where
  | ok
  | transientError
  | cancelledObserved
deriving DecidableEq

/-- How a chunk's retry loop ended. -/
inductive ChunkResult where
  /-- returned `{ chunkIndex, success: true }` -/
  | success
  /-- rethrew the `UPLOAD_CANCELLED` sentinel -/
  | cancelled
  /-- threw the transport error after the retry ceiling -/
  | failed
deriving DecidableEq

/-- The observable result of one chunk's retry loop: how it ended, the
backoff sleeps it performed (in order, in milliseconds), and how many
attempts it started. -/
structure ChunkRun where
  result : ChunkResult
  delays : List Nat
  attemptsUsed : Nat
deriving DecidableEq

/-- `MAX_RETRIES = 3`. -/
def MAX_RETRIES : Nat := 3

/-- The body of `uploadChunk`'s `while (attempts < MAX_RETRIES)` loop.
`attempts` is the count of failed attempts so far, `remaining` is
`MAX_RETRIES - attempts` (the loop guard as fuel).  On `UPLOAD_CANCELLED`
the catch block increments `attempts` and rethrows at once — no backoff.
On a transient error it increments `attempts`, throws if the ceiling is
reached, and otherwise sleeps `min(1000 * 2 ** attempts, 10000)` and
retries. -/
def uploadChunkGo (outcome : Nat → AttemptOutcome) :
    Nat → Nat → List Nat → ChunkRun
  | _, 0, delays => ⟨ChunkResult.failed, delays, MAX_RETRIES⟩
  | attempts, remaining + 1, delays =>
    match outcome attempts with
    | .ok => ⟨ChunkResult.success, delays, attempts + 1⟩
    | .cancelledObserved => ⟨ChunkResult.cancelled, delays, attempts + 1⟩
    | .transientError =>
      let a := attempts + 1
      if a ≥ MAX_RETRIES then ⟨ChunkResult.failed, delays, a⟩
      else uploadChunkGo outcome a remaining (delays ++ [min (1000 * 2 ^ a) 10000])

/-- `uploadChunk` for one chunk, as a function of what each attempt
observes. -/
def uploadChunk (outcome : Nat → AttemptOutcome) : ChunkRun :=
  uploadChunkGo outcome 0 MAX_RETRIES []

/-! ## The chunk dispatcher (`parallelChunkUpload`) -/

/-- The oracles of one dispatch: the file status the window pre-check
(`selectedFiles.find(...).status`) observes at each window index, and what
each attempt of each chunk observes. -/
structure DispatchEnv where
  statusAt : Nat → FileStatus
  chunkOutcome : Nat → Nat → AttemptOutcome

/-- How `parallelChunkUpload` ended. -/
inductive DispatchOutcome where
  /-- returned `true`: every chunk uploaded -/
  | completedAll
  /-- returned `false`: the `UPLOAD_CANCELLED` sentinel was caught -/
  | cancelledEarly
  /-- rethrew a chunk error to the caller -/
  | failed
deriving DecidableEq

/-- One window's chunks: `chunkIndex` from `batchStart = w * maxPar` to
`min(batchStart + maxPar, totalChunks)` (exclusive). -/
def windowChunks (total maxPar w : Nat) : List Nat :=
  List.range' (w * maxPar) (min (w * maxPar + maxPar) total - w * maxPar)

/-- Run the chunks of one window: every chunk is issued (one `uploadReq`
each); each chunk that succeeds increments the shared completed-count and
writes `progress = floor(completedChunks / totalChunks * 100)`; the window
reports whether any chunk ended in the cancellation sentinel and whether
any threw.  (The source issues the window concurrently and the shared
counter increments in completion order; the embedding linearizes in index
order — the claims under proof do not depend on the linearization.) -/
def windowRun (env : DispatchEnv) (fileId : String) (total : Nat) :
    Nat → List Nat → List ClientAction × Nat × Bool × Bool
  | completed, [] => ([], completed, false, false)
  | completed, i :: rest =>
    match (uploadChunk (env.chunkOutcome i)).result with
    | .success =>
      let r := windowRun env fileId total (completed + 1) rest
      (ClientAction.uploadReq fileId i ::
         ClientAction.setStatus fileId FileStatus.uploading
           (some ((completed + 1) * 100 / total)) :: r.1,
       r.2.1, r.2.2.1, r.2.2.2)
    | .cancelled =>
      let r := windowRun env fileId total completed rest
      (ClientAction.uploadReq fileId i :: r.1, r.2.1, true, r.2.2.2)
    | .failed =>
      let r := windowRun env fileId total completed rest
      (ClientAction.uploadReq fileId i :: r.1, r.2.1, r.2.2.1, true)

/-- The number of iterations of the dispatch loop
`for (batchStart = 0; batchStart < totalChunks; batchStart += maxPar)`. -/
def numWindows (total maxPar : Nat) : Nat :=
  (total + maxPar - 1) / maxPar

/-- The window loop of `parallelChunkUpload`, from window `w` on, with
`fuel` remaining windows and `completed` chunks finished so far.  Before
each window the current file status is re-checked; `CANCELLED` throws the
sentinel, which the surrounding catch turns into `return false`
(`cancelledEarly`) — issuing nothing further.  A window whose chunks
include a cancellation sentinel also ends the dispatch with
`cancelledEarly`; a window with a thrown chunk error ends it with
`failed`. -/
def dispatchGo (env : DispatchEnv) (fileId : String) (total maxPar : Nat) :
    Nat → Nat → Nat → DispatchOutcome × List ClientAction × Nat
  | 0, _, completed => (DispatchOutcome.completedAll, [], completed)
  | fuel + 1, w, completed =>
    if env.statusAt w = FileStatus.cancelled then
      (DispatchOutcome.cancelledEarly, [], completed)
    else
      let wr := windowRun env fileId total completed (windowChunks total maxPar w)
      if wr.2.2.1 then (DispatchOutcome.cancelledEarly, wr.1, wr.2.1)
      else if wr.2.2.2 then (DispatchOutcome.failed, wr.1, wr.2.1)
      else
        let rest := dispatchGo env fileId total maxPar fuel (w + 1) wr.2.1
        (rest.1, wr.1 ++ rest.2.1, rest.2.2)

/-- `parallelChunkUpload(file, uploadId, fileKey)`: computes
`totalChunks = ⌈size / chunkSize⌉` and runs the windows.  Returns how the
dispatch ended and the trace of actions it performed. -/
def parallelChunkUpload (env : DispatchEnv) (fileId : String)
    (size chunkSize maxPar : Nat) : DispatchOutcome × List ClientAction :=
  let total := totalChunks size chunkSize
  let r := dispatchGo env fileId total maxPar (numWindows total maxPar) 0 0
  (r.1, r.2.1)

/-! ## The per-file flow of `startUpload` -/

/-- The oracles of one file's run through `startUpload`'s per-file async
function: the dispatch oracles, whether the `initialize` round trip
succeeded, the file status observed by the final pre-`complete` check, and
whether the `complete` round trip succeeded. -/
structure FlowEnv where
  dispatch : DispatchEnv
  initOk : Bool
  finalStatus : FileStatus
  completeOk : Bool

/-- One file's pass through `startUpload` (the body of the
`currentFiles.map(async (file) => ...)`), as the trace of actions it
performs:

1. `updateFileStatus(id, UPLOADING, 0)`, then the `initialize` request; a
   failed initialize is caught and writes `FAILED` with `progress = 0`;
2. `parallelChunkUpload`; if it returned `false` (cancelled) the function
   returns — no `complete`, no further status write;
3. a failed dispatch is caught and writes `FAILED` with `progress = 0`;
4. one final local status check: if `CANCELLED`, return without `complete`;
5. the `complete` request; on success `COMPLETED`/100 is written, on error
   `FAILED`/0. -/
def uploadFileFlow (env : FlowEnv) (fileId : String)
    (size chunkSize maxPar : Nat) : List ClientAction :=
  let pre := [ClientAction.setStatus fileId FileStatus.uploading (some 0),
              ClientAction.initializeReq fileId]
  if ¬ env.initOk then
    pre ++ [ClientAction.setStatus fileId FileStatus.failed (some 0)]
  else
    let d := parallelChunkUpload env.dispatch fileId size chunkSize maxPar
    match d.1 with
    | .cancelledEarly => pre ++ d.2
    | .failed => pre ++ d.2 ++ [ClientAction.setStatus fileId FileStatus.failed (some 0)]
    | .completedAll =>
      if env.finalStatus = FileStatus.cancelled then pre ++ d.2
      else if env.completeOk then
        pre ++ d.2 ++ [ClientAction.completeReq fileId,
                       ClientAction.setStatus fileId FileStatus.completed (some 100)]
      else
        pre ++ d.2 ++ [ClientAction.completeReq fileId,
                       ClientAction.setStatus fileId FileStatus.failed (some 0)]

/-- A concrete environment for evaluation theorems. -/
def env0 : ServerEnv :=
  { bucketName := "bkt", region := "us-east-1",
    year := 2024, month := 6, day := 7,
    randomHex := "0a1b2c3d", freshUploadId := "U1",
    etag := fun _ => "etag-1" }

/-- An empty store. -/
def cloud0 : CloudState := ⟨[], [], []⟩

/-- A concrete `initialize` request for file id `f1`. -/
def initReqF1 : Request :=
  { action := Action.initializeAction, fileId := "f1", fileName := "a.txt",
    fileType := "text/plain", totalChunks := 0, currentChunk := 0,
    chunkData := [], uploadId := none, fileKey := none }


/-! ### Arithmetic facts about the chunk plan -/

theorem totalChunks_mul_ge (S C : Nat) (hC : 0 < C) :
    S ≤ C * totalChunks S C := by
  unfold totalChunks
  rcases Nat.eq_zero_or_pos S with hS | hS
  · simp [hS]
  · have h1 : (S + C - 1) / C * C + C > S + C - 1 := Nat.lt_div_mul_add hC
    have h2 : C * ((S + C - 1) / C) = (S + C - 1) / C * C := Nat.mul_comm _ _
    omega

theorem totalChunks_le_of_mul_ge (S C t : Nat) (hC : 0 < C)
    (h : S ≤ C * t) : totalChunks S C ≤ t := by
  unfold totalChunks
  rw [Nat.div_le_iff_le_mul_add_pred hC]
  omega

theorem chunkIndex_lt_totalChunks {S C b : Nat} (hC : 0 < C) (hb : b < S) :
    b / C < totalChunks S C := by
  have h1 : S ≤ C * totalChunks S C := totalChunks_mul_ge S C hC
  have h2 : b < C * totalChunks S C := Nat.lt_of_lt_of_le hb h1
  exact Nat.div_lt_of_lt_mul (by omega)

/-! ## Claim C2: the chunk plan partitions `[0, S)` -/

/-- **C2.** For every file of size `S` and chunk size `C > 0`:
`totalChunks = ⌈S / C⌉` (characterized as the least `t` with `S ≤ C * t`);
chunk `i` covers byte range `[i*C, min ((i+1)*C, S))`; the server assigns
part number `currentChunk + 1`; and the issued chunk ranges cover `[0, S)`
exactly, with no gaps and no overlaps. -/
theorem chunk_plan_partitions (S C : Nat) (hC : 0 < C) :
    (S ≤ C * totalChunks S C ∧ ∀ t, S ≤ C * t → totalChunks S C ≤ t)
    ∧ (∀ i, chunkStart C i = i * C ∧ chunkEnd S C i = min ((i + 1) * C) S)
    ∧ (∀ b, b < S ↔ ∃ i, i < totalChunks S C ∧
        chunkStart C i ≤ b ∧ b < chunkEnd S C i)
    ∧ (∀ i j b, chunkStart C i ≤ b → b < chunkEnd S C i →
        chunkStart C j ≤ b → b < chunkEnd S C j → i = j)
    ∧ (∀ i, serverPartNumber i = i + 1) := by
  refine ⟨⟨totalChunks_mul_ge S C hC, fun t ht => totalChunks_le_of_mul_ge S C t hC ht⟩,
    ?_, ?_, ?_, fun _ => rfl⟩
  · intro i
    constructor
    · rfl
    · unfold chunkEnd chunkStart
      have : i * C + C = (i + 1) * C := by ring
      rw [this]
  · intro b
    constructor
    · intro hb
      refine ⟨b / C, chunkIndex_lt_totalChunks hC hb, ?_, ?_⟩
      · exact Nat.div_mul_le_self b C
      · unfold chunkEnd chunkStart
        have hdm := Nat.div_add_mod b C
        have hml := Nat.mod_lt b hC
        have hcm : C * (b / C) = b / C * C := Nat.mul_comm _ _
        exact Nat.lt_min.mpr ⟨by omega, hb⟩
    · rintro ⟨i, _, _, hend⟩
      unfold chunkEnd at hend
      omega
  · intro i j b hi1 hi2 hj1 hj2
    unfold chunkStart at hi1 hj1
    unfold chunkEnd chunkStart at hi2 hj2
    have hi2' : b < i * C + C := lt_of_lt_of_le hi2 (min_le_left _ _)
    have hj2' : b < j * C + C := lt_of_lt_of_le hj2 (min_le_left _ _)
    by_contra hne
    rcases Nat.lt_or_ge i j with h | h
    · have : i + 1 ≤ j := h
      have : (i + 1) * C ≤ j * C := Nat.mul_le_mul_right C this
      have : i * C + C ≤ j * C := by
        have h1 : i * C + C = (i + 1) * C := by ring
        omega
      omega
    · rcases Nat.lt_or_ge j i with h' | h'
      · have : (j + 1) * C ≤ i * C := Nat.mul_le_mul_right C h'
        have : j * C + C ≤ i * C := by
          have h1 : j * C + C = (j + 1) * C := by ring
          omega
        omega
      · omega

/-- Witness for C2 at `S = 11`, `C = 4` (three chunks). -/
theorem chunk_plan_partitions_witness :
    (0 < 4 ∧ 11 ≤ 4 * totalChunks 11 4)
    ∧ (∃ i, i < totalChunks 11 4 ∧ chunkStart 4 i ≤ 10 ∧ 10 < chunkEnd 11 4 i) := by
  have h := chunk_plan_partitions 11 4 (by decide)
  exact ⟨⟨by decide, h.1.1⟩, (h.2.2.1 10).mp (by decide)⟩

/-! ## Lemmas about the state helpers -/

theorem getAssoc_setAssoc_self {α : Type} (m : List (String × α)) (k : String)
    (v : α) : getAssoc (setAssoc m k v) k = some v := by
  simp [getAssoc, setAssoc, List.find?_cons]

theorem getAssoc_eraseAssoc_self {α : Type} (m : List (String × α))
    (k : String) : getAssoc (eraseAssoc m k) k = none := by
  induction m with
  | nil => rfl
  | cons p t ih =>
    by_cases h : p.1 = k
    · simpa [eraseAssoc, List.filter_cons, h] using ih
    · simpa [eraseAssoc, getAssoc, List.filter_cons, List.find?_cons, h] using ih

theorem mem_insertSet_self (s : List String) (k : String) :
    k ∈ insertSet s k := by
  by_cases h : k ∈ s <;> simp [insertSet, h]

theorem mem_insertSet_of_mem {s : List String} {x : String} (k : String)
    (h : x ∈ s) : x ∈ insertSet s k := by
  by_cases hk : k ∈ s <;> simp [insertSet, hk, h]

/-! ## Claim C1: `initialize` after cancellation

The specification says re-initializing clears any prior cancellation flag so
that a retry can reuse the same file id, and the `initialize` branch of the
source indeed contains `cancelledUploads.delete(fileId)` under the comment
"If this file was previously cancelled, remove it from cancelled list".
But that line is unreachable for a cancelled id: the guard

```js
if (action !== "abort" && cancelledUploads.has(fileId)) {
  return res.status(409).json({ success: false, error: "Upload was cancelled", cancelled: true });
}
```

runs first and rejects every non-abort action — including `initialize` —
for a cancelled id.  The theorem below evaluates the handler at such a
state: the request is rejected with 409 and the id stays in the
cancellation set, contradicting the claim's "removes the id from the
cancellation set … and returns success". -/

/-- **C1 (code bug).** With `"f1"` in the cancellation set, a subsequent
`initialize` for `"f1"` is rejected with the 409 "Upload was cancelled"
conflict (no fresh session, no success), and `"f1"` is still in the
cancellation set afterwards — the claimed (and source-commented)
clearing of the flag never happens. -/
theorem initialize_rejected_when_cancelled :
    (handler env0 ⟨[], ["f1"], []⟩ cloud0 initReqF1).2.2 = Response.cancelledConflict
    ∧ (handler env0 ⟨[], ["f1"], []⟩ cloud0 initReqF1).1.cancelledUploads = ["f1"]
    ∧ (handler env0 ⟨[], ["f1"], []⟩ cloud0 initReqF1).1.multipartUploads = []
    ∧ Response.success Response.cancelledConflict = false
    ∧ Response.statusCode Response.cancelledConflict = 409 := by
  refine ⟨rfl, rfl, rfl, rfl, rfl⟩

/-! ## Claim C7: `upload` appends one part record and is not idempotent -/

/-- **C7.** On an open session (and a non-cancelled id), a successful
`upload` appends exactly one record `{PartNumber = currentChunk + 1, ETag}`
to the session's part list and returns `partsReceived` equal to the new
list length; re-sending the same chunk index appends a second record with
the same part number rather than replacing the first. -/
theorem upload_appends_duplicate_part
    (env env' : ServerEnv) (st : ServerState) (cloud : CloudState)
    (req req' : Request) (sess : UploadSession)
    (ha : req.action = Action.upload) (ha' : req'.action = Action.upload)
    (hid : req'.fileId = req.fileId)
    (hc : req'.currentChunk = req.currentChunk)
    (hsess : getAssoc st.multipartUploads req.fileId = some sess)
    (hnc : req.fileId ∉ st.cancelledUploads) :
    (handler env st cloud req).2.2 =
      Response.partAccepted (req.currentChunk + 1) (sess.parts.length + 1)
    ∧ getAssoc (handler env st cloud req).1.multipartUploads req.fileId =
        some { sess with parts :=
          sess.parts ++ [⟨req.currentChunk + 1, env.etag req.chunkData⟩] }
    ∧ (handler env' (handler env st cloud req).1
         (handler env st cloud req).2.1 req').2.2 =
        Response.partAccepted (req.currentChunk + 1) (sess.parts.length + 2)
    ∧ getAssoc (handler env' (handler env st cloud req).1
         (handler env st cloud req).2.1 req').1.multipartUploads req.fileId =
        some { sess with parts :=
          sess.parts ++ [⟨req.currentChunk + 1, env.etag req.chunkData⟩,
                         ⟨req.currentChunk + 1, env'.etag req'.chunkData⟩] } := by
  have h1 : handler env st cloud req =
      (ServerState.mk
        (setAssoc st.multipartUploads req.fileId
          ⟨sess.uploadId,
           sess.parts ++ [⟨req.currentChunk + 1, env.etag req.chunkData⟩],
           sess.fileKey⟩)
        st.cancelledUploads st.fileKeyMap,
       uploadPartCloud cloud (req.uploadId.getD "") (req.currentChunk + 1) req.chunkData,
       Response.partAccepted (req.currentChunk + 1) (sess.parts.length + 1)) := by
    unfold handler
    rw [if_neg (by simp [ha, hnc])]
    rw [ha]
    simp only [serverPartNumber, hsess]
    simp
  rw [h1]
  refine ⟨rfl, getAssoc_setAssoc_self _ _ _, ?_, ?_⟩
  · unfold handler
    rw [if_neg (by simp [ha', hid, hnc])]
    rw [ha']
    simp only [hid, getAssoc_setAssoc_self, serverPartNumber, hc]
    simp
  · unfold handler
    rw [if_neg (by simp [ha', hid, hnc])]
    rw [ha']
    simp only [hid, getAssoc_setAssoc_self, serverPartNumber, hc]
    simp [getAssoc_setAssoc_self]

/-- Witness for C7: a session for `"f1"` with one prior part; two uploads
of chunk index 1 produce two records with part number 2. -/
theorem upload_appends_duplicate_part_witness :
    (handler env0
      ⟨[("f1", ⟨"U1", [⟨1, "e0"⟩], "k1"⟩)], [], [("f1", "k1")]⟩ cloud0
      { action := Action.upload, fileId := "f1", fileName := "", fileType := "",
        totalChunks := 2, currentChunk := 1, chunkData := [7],
        uploadId := some "U1", fileKey := some "k1" }).2.2 =
      Response.partAccepted 2 2 := by
  exact (upload_appends_duplicate_part env0 env0
    ⟨[("f1", ⟨"U1", [⟨1, "e0"⟩], "k1"⟩)], [], [("f1", "k1")]⟩ cloud0
    { action := Action.upload, fileId := "f1", fileName := "", fileType := "",
      totalChunks := 2, currentChunk := 1, chunkData := [7],
      uploadId := some "U1", fileKey := some "k1" }
    { action := Action.upload, fileId := "f1", fileName := "", fileType := "",
      totalChunks := 2, currentChunk := 1, chunkData := [7],
      uploadId := some "U1", fileKey := some "k1" }
    ⟨"U1", [⟨1, "e0"⟩], "k1"⟩ rfl rfl rfl rfl (by rfl) (by decide)).1

/-! ## Claim C4: `abort` always succeeds, is idempotent, and cleans up -/

theorem pair_not_mem_filter_ne (l : List (String × String)) (k u : String) :
    (k, u) ∉ l.filter (fun p => ¬ (p.1 = k ∧ p.2 = u)) := by
  intro h
  have := (List.mem_filter.mp h).2
  simp at this

/-- **C4.** For every server state and every `abort` request: the response
is the success message (HTTP 200, `success: true`); the file id is added to
the cancellation set; if a session was open for the id, afterwards the
session is gone, the provider-side multipart upload for it is no longer
open, and no object remains at its key; and a second `abort` for the same
id again succeeds and keeps the id in the cancellation set. -/
theorem abort_idempotent_cleanup
    (env env2 : ServerEnv) (st : ServerState) (cloud : CloudState)
    (req req2 : Request)
    (ha : req.action = Action.abort) (ha2 : req2.action = Action.abort)
    (hid : req2.fileId = req.fileId) :
    (∃ m, (handler env st cloud req).2.2 = Response.aborted m)
    ∧ ((handler env st cloud req).2.2.success = true
        ∧ (handler env st cloud req).2.2.statusCode = 200)
    ∧ req.fileId ∈ (handler env st cloud req).1.cancelledUploads
    ∧ (∀ sess, getAssoc st.multipartUploads req.fileId = some sess →
        getAssoc (handler env st cloud req).1.multipartUploads req.fileId = none
        ∧ getAssoc (handler env st cloud req).1.fileKeyMap req.fileId = none
        ∧ (sess.fileKey, sess.uploadId) ∉ (handler env st cloud req).2.1.openMultipart
        ∧ getAssoc (handler env st cloud req).2.1.objects sess.fileKey = none)
    ∧ (∃ m2, (handler env2 (handler env st cloud req).1
          (handler env st cloud req).2.1 req2).2.2 = Response.aborted m2)
    ∧ req.fileId ∈ (handler env2 (handler env st cloud req).1
          (handler env st cloud req).2.1 req2).1.cancelledUploads := by
  have habort : ∀ (env' : ServerEnv) (st' : ServerState) (cloud' : CloudState)
      (r : Request), r.action = Action.abort →
      (∃ m, (handler env' st' cloud' r).2.2 = Response.aborted m)
      ∧ r.fileId ∈ (handler env' st' cloud' r).1.cancelledUploads
      ∧ (∀ sess, getAssoc st'.multipartUploads r.fileId = some sess →
          getAssoc (handler env' st' cloud' r).1.multipartUploads r.fileId = none
          ∧ getAssoc (handler env' st' cloud' r).1.fileKeyMap r.fileId = none
          ∧ (sess.fileKey, sess.uploadId) ∉ (handler env' st' cloud' r).2.1.openMultipart
          ∧ getAssoc (handler env' st' cloud' r).2.1.objects sess.fileKey = none) := by
    intro env' st' cloud' r hr
    unfold handler
    rw [if_neg (by simp [hr])]
    rw [hr]
    cases hsess : getAssoc st'.multipartUploads r.fileId with
    | none =>
      rcases htk : (match r.fileKey with
        | some k => some k
        | none => getAssoc st'.fileKeyMap r.fileId : Option String) with _ | tk
      · simp only [hsess, htk]
        refine ⟨⟨_, rfl⟩, mem_insertSet_self _ _, ?_⟩
        intro sess hs
        simp [hsess] at hs
      · simp only [hsess, htk]
        refine ⟨⟨_, rfl⟩, by simpa using mem_insertSet_self _ _, ?_⟩
        intro sess hs
        simp [hsess] at hs
    | some sess =>
      simp only [hsess]
      rw [if_neg (by simp)]
      refine ⟨⟨_, rfl⟩, by simpa using mem_insertSet_self _ _, ?_⟩
      intro sess' hs'
      injection hs' with hs''
      subst hs''
      refine ⟨by simpa using getAssoc_eraseAssoc_self _ _,
        by simpa using getAssoc_eraseAssoc_self _ _, ?_, ?_⟩
      · simp only [abortMultipart, deleteObjectCloud]
        exact pair_not_mem_filter_ne cloud'.openMultipart sess.fileKey sess.uploadId
      · simpa [abortMultipart, deleteObjectCloud] using
          getAssoc_eraseAssoc_self cloud'.objects sess.fileKey
  have h1 := habort env st cloud req ha
  have h2 := habort env2 (handler env st cloud req).1
    (handler env st cloud req).2.1 req2 ha2
  refine ⟨h1.1, ?_, h1.2.1, h1.2.2, ?_, ?_⟩
  · obtain ⟨m, hm⟩ := h1.1
    rw [hm]
    exact ⟨rfl, rfl⟩
  · exact h2.1
  · rw [hid] at h2
    exact h2.2.1

/-- Witness for C4: abort with an open session for `"f1"`, twice. -/
theorem abort_idempotent_cleanup_witness :
    (∃ m, (handler env0
        ⟨[("f1", ⟨"U1", [], "k1"⟩)], [], [("f1", "k1")]⟩
        ⟨[("k1", "U1")], [], []⟩
        { action := Action.abort, fileId := "f1", fileName := "", fileType := "",
          totalChunks := 0, currentChunk := 0, chunkData := [],
          uploadId := none, fileKey := none }).2.2 = Response.aborted m)
    ∧ "f1" ∈ (handler env0
        ⟨[("f1", ⟨"U1", [], "k1"⟩)], [], [("f1", "k1")]⟩
        ⟨[("k1", "U1")], [], []⟩
        { action := Action.abort, fileId := "f1", fileName := "", fileType := "",
          totalChunks := 0, currentChunk := 0, chunkData := [],
          uploadId := none, fileKey := none }).1.cancelledUploads := by
  have h := abort_idempotent_cleanup env0 env0
    ⟨[("f1", ⟨"U1", [], "k1"⟩)], [], [("f1", "k1")]⟩
    ⟨[("k1", "U1")], [], []⟩
    { action := Action.abort, fileId := "f1", fileName := "", fileType := "",
      totalChunks := 0, currentChunk := 0, chunkData := [],
      uploadId := none, fileKey := none }
    { action := Action.abort, fileId := "f1", fileName := "", fileType := "",
      totalChunks := 0, currentChunk := 0, chunkData := [],
      uploadId := none, fileKey := none }
    rfl rfl rfl
  exact ⟨h.1, h.2.2.1⟩

/-! ## Sorting lemmas for the `complete` action -/

theorem partLe_trans : ∀ a b c : PartRecord,
    partLe a b → partLe b c → partLe a c := by
  intro a b c hab hbc
  simp only [partLe, decide_eq_true_eq] at *
  omega

theorem partLe_total : ∀ a b : PartRecord, partLe a b || partLe b a := by
  intro a b
  simp only [partLe]
  rcases Nat.le_total a.PartNumber b.PartNumber with h | h <;> simp [h]

theorem sortParts_perm (ps : List PartRecord) : List.Perm (sortParts ps) ps :=
  List.mergeSort_perm ps partLe

theorem sortParts_pairwise (ps : List PartRecord) :
    (sortParts ps).Pairwise (fun a b => a.PartNumber ≤ b.PartNumber) := by
  have h : (List.mergeSort ps partLe).Pairwise (fun a b => partLe a b = true) :=
    List.sorted_mergeSort partLe_trans partLe_total ps
  exact h.imp (by intro a b hab; simpa [partLe] using hab)

/-- Two part lists that are permutations of each other and have pairwise
distinct part numbers sort to the same list. -/
theorem sortParts_eq_of_perm (ps qs : List PartRecord)
    (hperm : List.Perm ps qs)
    (hnodup : (ps.map PartRecord.PartNumber).Nodup) :
    sortParts ps = sortParts qs := by
  have hperm' : List.Perm (sortParts ps) (sortParts qs) :=
    ((sortParts_perm ps).trans hperm).trans (sortParts_perm qs).symm
  have hnodup_s : ((sortParts ps).map PartRecord.PartNumber).Nodup := by
    have hp : List.Perm ((sortParts ps).map PartRecord.PartNumber)
        (ps.map PartRecord.PartNumber) := (sortParts_perm ps).map _
    exact (hp.nodup_iff).mpr hnodup
  have hnodup_q : ((sortParts qs).map PartRecord.PartNumber).Nodup := by
    have hp : List.Perm ((sortParts ps).map PartRecord.PartNumber)
        ((sortParts qs).map PartRecord.PartNumber) := hperm'.map _
    exact (hp.nodup_iff).mp hnodup_s
  have hlt : ∀ (l : List PartRecord),
      l.Pairwise (fun a b => a.PartNumber ≤ b.PartNumber) →
      (l.map PartRecord.PartNumber).Nodup →
      l.Pairwise (fun a b => a.PartNumber < b.PartNumber) := by
    intro l hle hnd
    rw [List.Nodup, List.pairwise_map] at hnd
    exact (hle.and hnd).imp (by
      intro a b hab
      exact Nat.lt_of_le_of_ne hab.1 hab.2)
  haveI : IsAntisymm PartRecord (fun a b => a.PartNumber < b.PartNumber) :=
    ⟨by
      intro a b h1 h2
      exact absurd (Nat.lt_trans h1 h2) (Nat.lt_irrefl _)⟩
  exact List.eq_of_perm_of_sorted hperm'
    (hlt _ (sortParts_pairwise ps) hnodup_s)
    (hlt _ (sortParts_pairwise qs) hnodup_q)

/-- If the part numbers of `ps` are exactly `1..n` (each once), the sorted
part numbers are exactly the list `[1, …, n]` in order. -/
theorem sortParts_map_partNumber (ps : List PartRecord) (n : Nat)
    (honce : List.Perm (ps.map PartRecord.PartNumber) (List.range' 1 n)) :
    (sortParts ps).map PartRecord.PartNumber = List.range' 1 n := by
  have hperm : List.Perm ((sortParts ps).map PartRecord.PartNumber) (List.range' 1 n) :=
    ((sortParts_perm ps).map _).trans honce
  have hs1 : ((sortParts ps).map PartRecord.PartNumber).Pairwise (· ≤ ·) := by
    rw [List.pairwise_map]
    exact sortParts_pairwise ps
  have hs2 : (List.range' 1 n).Pairwise (α := Nat) (· ≤ ·) :=
    (List.pairwise_lt_range' 1 n).imp Nat.le_of_lt
  exact List.eq_of_perm_of_sorted hperm hs1 hs2

/-! ## Reassembling the chunks gives back the file -/

/-- Concatenating the first `k` chunk slices of a file gives its first
`k * C` bytes. -/
theorem flatten_chunks_take (file : List Nat) (C : Nat) :
    ∀ k, (((List.range k).map fun i =>
        jsSlice file (chunkStart C i) (chunkEnd file.length C i))).flatten
      = file.take (k * C) := by
  intro k
  induction k with
  | zero => simp
  | succ k ih =>
    rw [List.range_succ, List.map_append, List.flatten_append, ih]
    simp only [List.map_cons, List.map_nil, List.flatten_cons, List.flatten_nil,
      List.append_nil]
    rw [Nat.succ_mul, List.take_add]
    congr 1
    unfold jsSlice chunkStart chunkEnd
    have hlen : (file.drop (k * C)).length = file.length - k * C := by
      simp
    have harith : min (k * C + C) file.length - k * C
        = min C (file.drop (k * C)).length := by
      rw [hlen]; omega
    rw [chunkStart, harith, ← List.take_take, List.take_length]

/-- Concatenating all `totalChunks` chunk slices of a file, in chunk-index
order, gives back the file. -/
theorem flatten_chunks (file : List Nat) (C : Nat) (hC : 0 < C) :
    (((List.range (totalChunks file.length C)).map fun i =>
        jsSlice file (chunkStart C i) (chunkEnd file.length C i))).flatten
      = file := by
  rw [flatten_chunks_take]
  refine List.take_of_length_le ?_
  have := totalChunks_mul_ge file.length C hC
  calc file.length ≤ C * totalChunks file.length C := this
    _ = totalChunks file.length C * C := Nat.mul_comm _ _

theorem getAssoc_cons_self {α : Type} (m : List (String × α)) (k : String)
    (v : α) : getAssoc ((k, v) :: m) k = some v := by
  simp [getAssoc, List.find?_cons]

/-- Evaluation of the `complete` branch of the handler on an open session. -/
theorem handler_complete_eval (e : ServerEnv) (s : ServerState)
    (c : CloudState) (r : Request) (ss : UploadSession)
    (hr : r.action = Action.complete)
    (hss : getAssoc s.multipartUploads r.fileId = some ss)
    (hnc : r.fileId ∉ s.cancelledUploads) :
    handler e s c r =
      (ServerState.mk (eraseAssoc s.multipartUploads r.fileId)
         s.cancelledUploads (eraseAssoc s.fileKeyMap r.fileId),
       completeMultipart c ss.fileKey ss.uploadId (sortParts ss.parts),
       Response.completed ss.fileKey (getFileUrl e.bucketName e.region ss.fileKey)) := by
  unfold handler
  rw [if_neg (by simp [hr, hnc])]
  rw [hr]
  simp only [hss]

/-! ## Claim C3: `complete` is independent of the arrival order -/

/-- **C3.** For two sessions whose accumulated part lists are permutations
of one another, with part numbers exactly `1..n` (each present once),
sharing key and upload id: `complete` sorts both to the *same* finalized
part list, whose part numbers are `[1, …, n]` in ascending order; the
finalized object is identical for both arrival orders; and if the store
holds chunk `i`'s byte range of a file under part number `i + 1`, the
finalized object is byte-identical to that file. -/
theorem complete_order_independent
    (env env' : ServerEnv) (st st' : ServerState) (cloud : CloudState)
    (req req' : Request) (sess sess' : UploadSession) (n : Nat)
    (ha : req.action = Action.complete) (ha' : req'.action = Action.complete)
    (hs : getAssoc st.multipartUploads req.fileId = some sess)
    (hs' : getAssoc st'.multipartUploads req'.fileId = some sess')
    (hnc : req.fileId ∉ st.cancelledUploads)
    (hnc' : req'.fileId ∉ st'.cancelledUploads)
    (hperm : List.Perm sess.parts sess'.parts)
    (honce : List.Perm (sess.parts.map PartRecord.PartNumber) (List.range' 1 n))
    (hkey : sess'.fileKey = sess.fileKey) (huid : sess'.uploadId = sess.uploadId) :
    sortParts sess.parts = sortParts sess'.parts
    ∧ (sortParts sess.parts).map PartRecord.PartNumber = List.range' 1 n
    ∧ (handler env st cloud req).2.2
        = Response.completed sess.fileKey (getFileUrl env.bucketName env.region sess.fileKey)
    ∧ getAssoc (handler env st cloud req).2.1.objects sess.fileKey
        = getAssoc (handler env' st' cloud req').2.1.objects sess.fileKey
    ∧ (∀ (file : List Nat) (C : Nat), 0 < C →
        n = totalChunks file.length C →
        (∀ i, i < n → lookupPart cloud sess.uploadId (serverPartNumber i)
            = jsSlice file (chunkStart C i) (chunkEnd file.length C i)) →
        getAssoc (handler env st cloud req).2.1.objects sess.fileKey = some file) := by
  have hnodup : (sess.parts.map PartRecord.PartNumber).Nodup :=
    (honce.nodup_iff).mpr (List.nodup_range' 1 n)
  have c1 : sortParts sess.parts = sortParts sess'.parts :=
    sortParts_eq_of_perm _ _ hperm hnodup
  have c2 : (sortParts sess.parts).map PartRecord.PartNumber = List.range' 1 n :=
    sortParts_map_partNumber _ _ honce
  have he := handler_complete_eval env st cloud req sess ha hs hnc
  have he' := handler_complete_eval env' st' cloud req' sess' ha' hs' hnc'
  have hbody : ∀ (key uid : String) (ps : List PartRecord),
      getAssoc (completeMultipart cloud key uid ps).objects key
        = some ((ps.map (fun p => lookupPart cloud uid p.PartNumber)).flatten) := by
    intro key uid ps
    simp only [completeMultipart]
    exact getAssoc_cons_self _ _ _
  refine ⟨c1, c2, by rw [he], ?_, ?_⟩
  · rw [he, he']
    simp only []
    rw [hbody, hkey, hbody, huid, ← c1]
  · intro file C hC hn hparts
    rw [he]
    simp only []
    rw [hbody]
    congr 1
    have hmm : (sortParts sess.parts).map
        (fun p => lookupPart cloud sess.uploadId p.PartNumber)
        = ((sortParts sess.parts).map PartRecord.PartNumber).map
            (fun pn => lookupPart cloud sess.uploadId pn) := by
      rw [List.map_map]
      rfl
    rw [hmm, c2, List.range'_eq_map_range, List.map_map]
    have hcongr : (List.range n).map ((fun pn => lookupPart cloud sess.uploadId pn) ∘ (1 + ·))
        = (List.range n).map (fun i =>
            jsSlice file (chunkStart C i) (chunkEnd file.length C i)) := by
      refine List.map_congr_left ?_
      intro i hi
      have hi' : i < n := List.mem_range.mp hi
      have := hparts i hi'
      simp only [Function.comp_apply]
      rw [Nat.add_comm 1 i] at *
      simpa [serverPartNumber] using this
    rw [hcongr, hn]
    exact flatten_chunks file C hC

/-- Witness for C3: parts `[2, 1]` versus `[1, 2]` (same records, swapped
arrival order); both sort to `[1, 2]`, and the finalized object equals the
two-byte file `[10, 20]` assembled from its two one-byte chunks. -/
theorem complete_order_independent_witness :
    sortParts [⟨2, "e2"⟩, ⟨1, "e1"⟩] = sortParts [⟨1, "e1"⟩, ⟨2, "e2"⟩]
    ∧ getAssoc (handler env0
        ⟨[("f1", ⟨"U1", [⟨2, "e2"⟩, ⟨1, "e1"⟩], "k1"⟩)], [], []⟩
        ⟨[], [("U1", 1, [10]), ("U1", 2, [20])], []⟩
        { action := Action.complete, fileId := "f1", fileName := "", fileType := "",
          totalChunks := 2, currentChunk := 0, chunkData := [],
          uploadId := some "U1", fileKey := some "k1" }).2.1.objects "k1"
      = some [10, 20] := by
  have h := complete_order_independent env0 env0
    ⟨[("f1", ⟨"U1", [⟨2, "e2"⟩, ⟨1, "e1"⟩], "k1"⟩)], [], []⟩
    ⟨[("f1", ⟨"U1", [⟨1, "e1"⟩, ⟨2, "e2"⟩], "k1"⟩)], [], []⟩
    ⟨[], [("U1", 1, [10]), ("U1", 2, [20])], []⟩
    { action := Action.complete, fileId := "f1", fileName := "", fileType := "",
      totalChunks := 2, currentChunk := 0, chunkData := [],
      uploadId := some "U1", fileKey := some "k1" }
    { action := Action.complete, fileId := "f1", fileName := "", fileType := "",
      totalChunks := 2, currentChunk := 0, chunkData := [],
      uploadId := some "U1", fileKey := some "k1" }
    ⟨"U1", [⟨2, "e2"⟩, ⟨1, "e1"⟩], "k1"⟩
    ⟨"U1", [⟨1, "e1"⟩, ⟨2, "e2"⟩], "k1"⟩ 2
    rfl rfl rfl rfl (by decide) (by decide) (by decide) (by decide) rfl rfl
  exact ⟨h.1, h.2.2.2.2 [10, 20] 1 (by decide) (by decide) (by decide)⟩

/-! ## Claim C9: zero-length files -/

/-- **C9.** For a zero-length file the dispatcher computes
`totalChunks = 0` and issues no `upload` action (its trace is empty and it
reports success), and `complete` on the resulting session with an empty
part list answers success, finalizing an empty object. -/
theorem zero_length_file (env : ServerEnv) (st : ServerState)
    (cloud : CloudState) (req : Request) (denv : DispatchEnv)
    (fid uid key : String) (C maxPar : Nat)
    (hC : 0 < C) (hP : 0 < maxPar)
    (ha : req.action = Action.complete)
    (hs : getAssoc st.multipartUploads req.fileId = some ⟨uid, [], key⟩)
    (hnc : req.fileId ∉ st.cancelledUploads) :
    totalChunks 0 C = 0
    ∧ (parallelChunkUpload denv fid 0 C maxPar).1 = DispatchOutcome.completedAll
    ∧ (parallelChunkUpload denv fid 0 C maxPar).2 = []
    ∧ (handler env st cloud req).2.2
        = Response.completed key (getFileUrl env.bucketName env.region key)
    ∧ Response.success (handler env st cloud req).2.2 = true
    ∧ getAssoc (handler env st cloud req).2.1.objects key = some [] := by
  have h0 : totalChunks 0 C = 0 := by
    unfold totalChunks
    exact Nat.div_eq_of_lt (by omega)
  have hw : numWindows (totalChunks 0 C) maxPar = 0 := by
    rw [h0]
    unfold numWindows
    exact Nat.div_eq_of_lt (by omega)
  have hpc : parallelChunkUpload denv fid 0 C maxPar
      = (DispatchOutcome.completedAll, []) := by
    unfold parallelChunkUpload
    simp only []
    rw [hw]
    rfl
  have he := handler_complete_eval env st cloud req ⟨uid, [], key⟩ ha hs hnc
  have hsort : sortParts ([] : List PartRecord) = [] := by
    simp [sortParts]
  refine ⟨h0, by rw [hpc], by rw [hpc], by rw [he], by rw [he]; rfl, ?_⟩
  rw [he]
  simp only [hsort, completeMultipart]
  simpa using getAssoc_cons_self _ _ _

/-- Witness for C9 at `C = 5`, `maxPar = 3`, with a concrete session. -/
theorem zero_length_file_witness :
    totalChunks 0 5 = 0
    ∧ (parallelChunkUpload ⟨fun _ => FileStatus.uploading, fun _ _ => AttemptOutcome.ok⟩
        "f1" 0 5 3).2 = []
    ∧ getAssoc (handler env0 ⟨[("f1", ⟨"U1", [], "k1"⟩)], [], []⟩ cloud0
        { action := Action.complete, fileId := "f1", fileName := "", fileType := "",
          totalChunks := 0, currentChunk := 0, chunkData := [],
          uploadId := some "U1", fileKey := some "k1" }).2.1.objects "k1"
      = some [] := by
  have h := zero_length_file env0 ⟨[("f1", ⟨"U1", [], "k1"⟩)], [], []⟩ cloud0
    { action := Action.complete, fileId := "f1", fileName := "", fileType := "",
      totalChunks := 0, currentChunk := 0, chunkData := [],
      uploadId := some "U1", fileKey := some "k1" }
    ⟨fun _ => FileStatus.uploading, fun _ _ => AttemptOutcome.ok⟩
    "f1" "U1" "k1" 5 3 (by decide) (by decide) rfl rfl (by decide)
  exact ⟨h.1, h.2.2.1, h.2.2.2.2.2⟩

/-! ## Claim C6: per-chunk retry ceiling, backoff, and cancellation -/

/-- **C6.** For every chunk: at most 3 attempts are started; if all three
attempts fail transiently the chunk ends in a thrown error (surfaced by the
flow as a file-level `failed` status, last conjunct) after sleeping
`min(1000·2^1, 10000)` and then `min(1000·2^2, 10000)` milliseconds between
the attempts; and a cancellation observed at any attempt `k` ends the loop
at once with the sentinel — the delays are exactly those of the `k` earlier
transient failures, with no backoff added after the cancellation. -/
theorem chunk_retry_policy (outcome : Nat → AttemptOutcome) :
    (uploadChunk outcome).attemptsUsed ≤ MAX_RETRIES
    ∧ (outcome 0 = AttemptOutcome.transientError →
       outcome 1 = AttemptOutcome.transientError →
       outcome 2 = AttemptOutcome.transientError →
        uploadChunk outcome =
          ⟨ChunkResult.failed,
           [min (1000 * 2 ^ 1) 10000, min (1000 * 2 ^ 2) 10000], 3⟩)
    ∧ (∀ k, k < MAX_RETRIES →
        (∀ j, j < k → outcome j = AttemptOutcome.transientError) →
        outcome k = AttemptOutcome.cancelledObserved →
        uploadChunk outcome =
          ⟨ChunkResult.cancelled,
           (List.range' 1 k).map (fun a => min (1000 * 2 ^ a) 10000), k + 1⟩)
    ∧ (∀ (fenv : FlowEnv) (fid : String) (size C maxPar : Nat),
        fenv.initOk = true →
        (parallelChunkUpload fenv.dispatch fid size C maxPar).1 = DispatchOutcome.failed →
        ClientAction.setStatus fid FileStatus.failed (some 0)
          ∈ uploadFileFlow fenv fid size C maxPar) := by
  refine ⟨?_, ?_, ?_, ?_⟩
  · rcases h0 : outcome 0 with _ | _ | _ <;>
      rcases h1 : outcome 1 with _ | _ | _ <;>
        rcases h2 : outcome 2 with _ | _ | _ <;>
          simp [uploadChunk, uploadChunkGo, MAX_RETRIES, h0, h1, h2]
  · intro h0 h1 h2
    simp [uploadChunk, uploadChunkGo, MAX_RETRIES, h0, h1, h2]
  · intro k hk hbefore hcanc
    match k, hk with
    | 0, _ =>
      simp [uploadChunk, uploadChunkGo, MAX_RETRIES, hcanc]
    | 1, _ =>
      have h0 := hbefore 0 (by omega)
      simp [uploadChunk, uploadChunkGo, MAX_RETRIES, h0, hcanc, List.range']
    | 2, _ =>
      have h0 := hbefore 0 (by omega)
      have h1 := hbefore 1 (by omega)
      simp [uploadChunk, uploadChunkGo, MAX_RETRIES, h0, h1, hcanc, List.range']
  · intro fenv fid size C maxPar hinit hfail
    simp only [uploadFileFlow, hinit]
    rw [hfail]
    simp

/-- Witness for C6: three transient failures exhaust the ceiling with
backoffs 2000 ms and 4000 ms; a cancellation on the first attempt stops
with no delay at all. -/
theorem chunk_retry_policy_witness :
    uploadChunk (fun _ => AttemptOutcome.transientError) =
      ⟨ChunkResult.failed,
       [min (1000 * 2 ^ 1) 10000, min (1000 * 2 ^ 2) 10000], 3⟩
    ∧ uploadChunk (fun _ => AttemptOutcome.cancelledObserved) =
      ⟨ChunkResult.cancelled, [], 1⟩ := by
  refine ⟨(chunk_retry_policy (fun _ => AttemptOutcome.transientError)).2.1 rfl rfl rfl, ?_⟩
  have h := (chunk_retry_policy (fun _ => AttemptOutcome.cancelledObserved)).2.2.1
    0 (by decide) (by intro j hj; omega) rfl
  simpa using h

/-! ## Dispatcher lemmas -/

/-- A window whose chunks all succeed raises neither the cancellation flag
nor the failure flag. -/
theorem windowRun_flags_of_success (env : DispatchEnv) (fid : String)
    (total : Nat) :
    ∀ (chunks : List Nat) (c0 : Nat),
      (∀ i ∈ chunks, (uploadChunk (env.chunkOutcome i)).result = ChunkResult.success) →
      (windowRun env fid total c0 chunks).2.2.1 = false
      ∧ (windowRun env fid total c0 chunks).2.2.2 = false := by
  intro chunks
  induction chunks with
  | nil => intro c0 _; exact ⟨rfl, rfl⟩
  | cons i rest ih =>
    intro c0 h
    have hi := h i (List.mem_cons_self i rest)
    have hrest := fun j hj => h j (List.mem_cons_of_mem _ hj)
    simp only [windowRun, hi]
    exact ih (c0 + 1) hrest

/-- Every action a window emits is an `uploadReq` or an
`uploading`-progress write for the dispatched file. -/
theorem windowRun_trace_shape (env : DispatchEnv) (fid : String)
    (total : Nat) :
    ∀ (chunks : List Nat) (c0 : Nat) (a : ClientAction),
      a ∈ (windowRun env fid total c0 chunks).1 →
      (∃ i, a = ClientAction.uploadReq fid i)
      ∨ (∃ p, a = ClientAction.setStatus fid FileStatus.uploading p) := by
  intro chunks
  induction chunks with
  | nil => intro c0 a ha; simp [windowRun] at ha
  | cons i rest ih =>
    intro c0 a ha
    rcases hres : (uploadChunk (env.chunkOutcome i)).result with _ | _ | _ <;>
      simp only [windowRun, hres, List.mem_cons] at ha
    · rcases ha with rfl | rfl | ha
      · exact Or.inl ⟨i, rfl⟩
      · exact Or.inr ⟨_, rfl⟩
      · exact ih (c0 + 1) a ha
    · rcases ha with rfl | ha
      · exact Or.inl ⟨i, rfl⟩
      · exact ih c0 a ha
    · rcases ha with rfl | ha
      · exact Or.inl ⟨i, rfl⟩
      · exact ih c0 a ha

/-- Every action the dispatch loop emits is an `uploadReq` or an
`uploading`-progress write for the dispatched file — never a `complete`
request and never a terminal status write. -/
theorem dispatchGo_trace_shape (env : DispatchEnv) (fid : String)
    (total maxPar : Nat) :
    ∀ (fuel w c : Nat) (a : ClientAction),
      a ∈ (dispatchGo env fid total maxPar fuel w c).2.1 →
      (∃ i, a = ClientAction.uploadReq fid i)
      ∨ (∃ p, a = ClientAction.setStatus fid FileStatus.uploading p) := by
  intro fuel
  induction fuel with
  | zero => intro w c a ha; simp [dispatchGo] at ha
  | succ fuel ih =>
    intro w c a ha
    by_cases hst : env.statusAt w = FileStatus.cancelled
    · simp [dispatchGo, hst] at ha
    · simp only [dispatchGo, if_neg hst] at ha
      by_cases hc : (windowRun env fid total c (windowChunks total maxPar w)).2.2.1 = true
      · rw [if_pos hc] at ha
        exact windowRun_trace_shape env fid total _ c a ha
      · rw [if_neg hc] at ha
        by_cases hf : (windowRun env fid total c (windowChunks total maxPar w)).2.2.2 = true
        · rw [if_pos hf] at ha
          exact windowRun_trace_shape env fid total _ c a ha
        · rw [if_neg hf] at ha
          simp only [List.mem_append] at ha
          rcases ha with ha | ha
          · exact windowRun_trace_shape env fid total _ c a ha
          · exact ih (w + 1) _ a ha

/-- If the pre-checks of the first `k` windows see a non-cancelled status
and their chunks all succeed, and the pre-check of window `k` sees
`CANCELLED`, the dispatch ends with the cancellation sentinel. -/
theorem dispatchGo_cancelled_at (env : DispatchEnv) (fid : String)
    (total maxPar : Nat) :
    ∀ (k fuel w c : Nat), k < fuel →
      (∀ j, j < k → env.statusAt (w + j) ≠ FileStatus.cancelled) →
      (∀ j, j < k → ∀ i ∈ windowChunks total maxPar (w + j),
          (uploadChunk (env.chunkOutcome i)).result = ChunkResult.success) →
      env.statusAt (w + k) = FileStatus.cancelled →
      (dispatchGo env fid total maxPar fuel w c).1 = DispatchOutcome.cancelledEarly := by
  intro k
  induction k with
  | zero =>
    intro fuel w c hf _ _ hcanc
    match fuel, hf with
    | fuel + 1, _ =>
      simp only [dispatchGo]
      rw [if_pos (by simpa using hcanc)]
  | succ k ih =>
    intro fuel w c hf hbef hok hcanc
    match fuel, hf with
    | fuel + 1, hf =>
      have hst : ¬ env.statusAt w = FileStatus.cancelled := by
        have := hbef 0 (by omega)
        simpa using this
      have hflags := windowRun_flags_of_success env fid total
        (windowChunks total maxPar w) c
        (by
          intro i hi
          have := hok 0 (by omega) i
          simp only [Nat.add_zero] at this
          exact this hi)
      simp only [dispatchGo, if_neg hst]
      rw [if_neg (by simp [hflags.1]), if_neg (by simp [hflags.2])]
      refine ih fuel (w + 1) _ (by omega) ?_ ?_ ?_
      · intro j hj
        have := hbef (j + 1) (by omega)
        have harith : w + (j + 1) = w + 1 + j := by omega
        rwa [harith] at this
      · intro j hj i hi
        refine hok (j + 1) (by omega) i ?_
        have harith : w + (j + 1) = w + 1 + j := by omega
        rwa [harith]
      · have harith : w + (k + 1) = w + 1 + k := by omega
        rwa [harith] at hcanc

/-! ## Claim C5: cancellation before the final window -/

/-- **C5.** If the file's status reads `cancelled` at the pre-check of some
window `k` (before the windows ran out), the earlier windows having
proceeded normally, then: the dispatch ends with the cancellation sentinel
(`return false`); the flow issues no `complete` request for the file; the
flow itself writes no status other than `uploading` — in particular it
never writes `completed`, so the file keeps the `cancelled` status written
by `cancelUpload`; and `cancelUpload` — the operation that marks a file
cancelled — writes exactly `cancelled` for the file and issues exactly one
`abort` request for it. -/
theorem cancel_before_final_window (fenv : FlowEnv)
    (files : List UploadableFile) (fid : String)
    (size C maxPar k : Nat)
    (hinit : fenv.initOk = true)
    (hk : k < numWindows (totalChunks size C) maxPar)
    (hcanc : fenv.dispatch.statusAt k = FileStatus.cancelled)
    (hbefore : ∀ j, j < k → fenv.dispatch.statusAt j ≠ FileStatus.cancelled)
    (hok : ∀ j, j < k → ∀ i ∈ windowChunks (totalChunks size C) maxPar j,
        (uploadChunk (fenv.dispatch.chunkOutcome i)).result = ChunkResult.success) :
    (parallelChunkUpload fenv.dispatch fid size C maxPar).1 = DispatchOutcome.cancelledEarly
    ∧ ClientAction.completeReq fid ∉ uploadFileFlow fenv fid size C maxPar
    ∧ (∀ s p, ClientAction.setStatus fid s p ∈ uploadFileFlow fenv fid size C maxPar →
        s = FileStatus.uploading)
    ∧ (cancelUpload files fid).2 = [ClientAction.abortReq fid]
    ∧ (∀ f, f ∈ (cancelUpload files fid).1 → f.id = fid →
        f.status = FileStatus.cancelled) := by
  have hd : (parallelChunkUpload fenv.dispatch fid size C maxPar).1
      = DispatchOutcome.cancelledEarly := by
    unfold parallelChunkUpload
    simp only []
    refine dispatchGo_cancelled_at fenv.dispatch fid (totalChunks size C) maxPar
      k (numWindows (totalChunks size C) maxPar) 0 0 hk ?_ ?_ ?_
    · intro j hj
      simpa using hbefore j hj
    · intro j hj i hi
      refine hok j hj i ?_
      simpa using hi
    · simpa using hcanc
  have hflow : uploadFileFlow fenv fid size C maxPar =
      [ClientAction.setStatus fid FileStatus.uploading (some 0),
       ClientAction.initializeReq fid]
      ++ (parallelChunkUpload fenv.dispatch fid size C maxPar).2 := by
    simp only [uploadFileFlow, hinit]
    rw [hd]
    simp
  have hshape : ∀ a, a ∈ (parallelChunkUpload fenv.dispatch fid size C maxPar).2 →
      (∃ i, a = ClientAction.uploadReq fid i)
      ∨ (∃ p, a = ClientAction.setStatus fid FileStatus.uploading p) := by
    intro a ha
    unfold parallelChunkUpload at ha
    simp only [] at ha
    exact dispatchGo_trace_shape fenv.dispatch fid (totalChunks size C) maxPar
      _ 0 0 a ha
  refine ⟨hd, ?_, ?_, rfl, ?_⟩
  · rw [hflow]
    intro hmem
    rcases List.mem_append.mp hmem with h | h
    · simp at h
    · rcases hshape _ h with ⟨i, hi⟩ | ⟨p, hp⟩
      · exact ClientAction.noConfusion hi
      · exact ClientAction.noConfusion hp
  · intro s p hmem
    rw [hflow] at hmem
    rcases List.mem_append.mp hmem with h | h
    · simp only [List.mem_cons, List.not_mem_nil, or_false] at h
      rcases h with h | h
      · injection h with e1 e2 e3
      · exact ClientAction.noConfusion h
    · rcases hshape _ h with ⟨i, hi⟩ | ⟨q, hq⟩
      · exact ClientAction.noConfusion hi
      · injection hq with e1 e2 e3
  · intro f hf hfid
    unfold cancelUpload updateFileStatus at hf
    rcases List.mem_map.mp hf with ⟨g, _, rfl⟩
    by_cases h : g.id = fid
    · simp [h]
    · simp only [if_neg h] at hfid ⊢
      exact absurd hfid h

/-- Witness for C5: cancellation is observed at the pre-check of the first
(and only) window of a one-chunk file; no `complete` is issued and
`cancelUpload` emits the abort. -/
theorem cancel_before_final_window_witness :
    (parallelChunkUpload
        ⟨fun _ => FileStatus.cancelled, fun _ _ => AttemptOutcome.ok⟩
        "f1" 1 1 1).1 = DispatchOutcome.cancelledEarly
    ∧ ClientAction.completeReq "f1" ∉ uploadFileFlow
        ⟨⟨fun _ => FileStatus.cancelled, fun _ _ => AttemptOutcome.ok⟩,
         true, FileStatus.uploading, true⟩ "f1" 1 1 1
    ∧ (cancelUpload [⟨"f1", "a", 1, FileStatus.uploading, 0, none, 0⟩] "f1").2
        = [ClientAction.abortReq "f1"] := by
  have h := cancel_before_final_window
    ⟨⟨fun _ => FileStatus.cancelled, fun _ _ => AttemptOutcome.ok⟩,
     true, FileStatus.uploading, true⟩
    [⟨"f1", "a", 1, FileStatus.uploading, 0, none, 0⟩] "f1" 1 1 1 0
    rfl (by decide) rfl
    (by intro j hj; omega)
    (by intro j hj; omega)
  exact ⟨h.1, h.2.1, h.2.2.2.1⟩

/-! ## Claim C10: `cancelAllUploads` frame property and the batch loop -/

/-- `updateFileStatus` with status `CANCELLED` and no progress/error is the
pointwise cancel-if-id-matches map. -/
theorem updateFileStatus_cancel (files : List UploadableFile) (fid : String) :
    updateFileStatus files fid FileStatus.cancelled none none
      = files.map (fun f =>
          if f.id = fid then { f with status := FileStatus.cancelled } else f) := by
  unfold updateFileStatus
  refine List.map_congr_left ?_
  intro f _
  by_cases h : f.id = fid <;> simp [h]

/-- Folding the per-file cancel over a list of files cancels exactly the
records whose id occurs in that list. -/
theorem foldl_cancel_eq (u : List UploadableFile) :
    ∀ files : List UploadableFile,
      u.foldl (fun fs g => updateFileStatus fs g.id FileStatus.cancelled none none) files
        = files.map (fun f =>
            if f.id ∈ u.map UploadableFile.id
            then { f with status := FileStatus.cancelled } else f) := by
  induction u with
  | nil =>
    intro files
    simp
  | cons g rest ih =>
    intro files
    simp only [List.foldl_cons]
    rw [ih, updateFileStatus_cancel, List.map_map]
    refine List.map_congr_left ?_
    intro f _
    by_cases h : f.id = g.id <;>
      by_cases h2 : f.id ∈ rest.map UploadableFile.id <;>
        simp [Function.comp, h, h2, List.mem_cons]

/-- The batch recursion of `startUpload` processes every eligible file:
the concatenation of the batches it runs is the full captured list.  (Its
stopping condition is an empty slice only; it never consults the
`isUploading` flag `cancelAllUploads` resets.) -/
theorem uploadBatches_flatten {α : Type} (conc : Nat) (hconc : 0 < conc)
    (l : List α) : (uploadBatches conc l).flatten = l := by
  obtain ⟨c, rfl⟩ : ∃ c, conc = c + 1 := ⟨conc - 1, by omega⟩
  suffices h : ∀ (n : Nat) (l : List α), l.length ≤ n →
      (uploadBatches (c + 1) l).flatten = l by
    exact h l.length l le_rfl
  intro n
  induction n with
  | zero =>
    intro l hl
    have hnil : l = [] := List.length_eq_zero.mp (by omega)
    subst hnil
    simp [uploadBatches]
  | succ n ih =>
    intro l hl
    cases l with
    | nil => simp [uploadBatches]
    | cons a t =>
      rw [uploadBatches]
      simp only [List.flatten_cons]
      rw [ih ((a :: t).drop (c + 1)) (by
        simp only [List.length_drop, List.length_cons] at *
        omega)]
      exact List.take_append_drop _ _

/-- **C10.** `cancelAllUploads` sets the `isUploading` flag to `false`,
turns exactly the currently-`uploading` records to `cancelled` (each other
record — `pending`, `failed`, `completed`, already-`cancelled` — is kept
unchanged, all its fields included), issues one `abort` per uploading
file, and the batch loop of a running `startUpload` is unaffected: the
batches it processes still cover every captured file. -/
theorem cancelAll_frame_and_batches {α : Type}
    (files : List UploadableFile) (conc : Nat) (batchFiles : List α)
    (hids : (files.map UploadableFile.id).Nodup) (hconc : 0 < conc) :
    (cancelAllUploads files).1 = false
    ∧ (cancelAllUploads files).2.1 = files.map (fun f =>
        if f.status = FileStatus.uploading
        then { f with status := FileStatus.cancelled } else f)
    ∧ (∀ f ∈ files, f.status ≠ FileStatus.uploading →
        f ∈ (cancelAllUploads files).2.1)
    ∧ (∀ f ∈ files, f.status = FileStatus.uploading →
        { f with status := FileStatus.cancelled } ∈ (cancelAllUploads files).2.1)
    ∧ (cancelAllUploads files).2.2
        = (files.filter (fun f => f.status = FileStatus.uploading)).map
            (fun f => ClientAction.abortReq f.id)
    ∧ (uploadBatches conc batchFiles).flatten = batchFiles := by
  have hmain : (cancelAllUploads files).2.1 = files.map (fun f =>
      if f.status = FileStatus.uploading
      then { f with status := FileStatus.cancelled } else f) := by
    show (files.filter (fun f => f.status = FileStatus.uploading)).foldl
        (fun fs f => updateFileStatus fs f.id FileStatus.cancelled none none) files
      = _
    rw [foldl_cancel_eq]
    refine List.map_congr_left ?_
    intro f hf
    by_cases hup : f.status = FileStatus.uploading
    · rw [if_pos ?_, if_pos hup]
      exact List.mem_map_of_mem _ (List.mem_filter.mpr ⟨hf, by simp [hup]⟩)
    · rw [if_neg ?_, if_neg hup]
      intro hmem
      rcases List.mem_map.mp hmem with ⟨g, hg, hgid⟩
      have hgf := List.mem_filter.mp hg
      have : g = f := List.inj_on_of_nodup_map hids hgf.1 hf hgid
      rw [this] at hgf
      exact hup (by simpa using hgf.2)
  refine ⟨rfl, hmain, ?_, ?_, rfl, uploadBatches_flatten conc hconc batchFiles⟩
  · intro f hf hnup
    rw [hmain]
    have : f = (fun f : UploadableFile =>
        if f.status = FileStatus.uploading
        then { f with status := FileStatus.cancelled } else f) f := by
      simp [hnup]
    rw [this]
    exact List.mem_map_of_mem _ hf
  · intro f hf hup
    rw [hmain]
    have : { f with status := FileStatus.cancelled } = (fun f : UploadableFile =>
        if f.status = FileStatus.uploading
        then { f with status := FileStatus.cancelled } else f) f := by
      simp [hup]
    rw [this]
    exact List.mem_map_of_mem _ hf

/-- Witness for C10: one `uploading` file is cancelled, one `pending` file
is untouched, and batches of size 2 over three items cover all three. -/
theorem cancelAll_frame_and_batches_witness :
    (cancelAllUploads
        [⟨"f1", "a", 1, FileStatus.uploading, 0, none, 0⟩,
         ⟨"f2", "b", 2, FileStatus.pending, 0, none, 0⟩]).2.1
      = [⟨"f1", "a", 1, FileStatus.cancelled, 0, none, 0⟩,
         ⟨"f2", "b", 2, FileStatus.pending, 0, none, 0⟩]
    ∧ (cancelAllUploads
        [⟨"f1", "a", 1, FileStatus.uploading, 0, none, 0⟩,
         ⟨"f2", "b", 2, FileStatus.pending, 0, none, 0⟩]).2.2
      = [ClientAction.abortReq "f1"]
    ∧ (uploadBatches 2 ["x", "y", "z"]).flatten = ["x", "y", "z"] := by
  have h := cancelAll_frame_and_batches
    [⟨"f1", "a", 1, FileStatus.uploading, 0, none, 0⟩,
     ⟨"f2", "b", 2, FileStatus.pending, 0, none, 0⟩]
    2 ["x", "y", "z"] (by decide) (by decide)
  refine ⟨?_, ?_, h.2.2.2.2.2⟩
  · rw [h.2.1]
    rfl
  · rw [h.2.2.2.2.1]
    rfl

/-! ## Claim C8: the generated storage key

The claim (and spec §6) state the form
`uploads/<YYYY>/<MM>/<DD>/<8-hex-id>-<sanitized-name>` — the date as three
nested path segments.  The current `pages/api/upload-chunk.js` builds

```js
return `uploads/${year}-${month}-${day}/${uniqueId}-${cleanName}`;
```

— a *single* date segment with dashes (the earlier revision of the file,
and `lib/s3.js`/`lib/cloudStorage.js`, used slashes; the chunked-upload
endpoint does not).  The counterexample below exhibits the mismatch at a
concrete date, id and file name.  The rest of the claim (safe character
set, whitespace runs collapsed to one dash, 8-hex id distinguishing
same-named files) holds and is proved in the amended form. -/

/-- **C8, counterexample.** At date 2024-06-07, id `"0a1b2c3d"` and file
name `"report.txt"` (whose sanitized form is itself), the generated key is
`uploads/2024-06-07/0a1b2c3d-report.txt` — not the claimed
`uploads/2024/06/07/0a1b2c3d-report.txt`; in particular it has two `/`
separators, not the four the claimed form requires. -/
theorem generateFileKey_not_claimed_form :
    generateFileKey 2024 6 7 "0a1b2c3d" "report.txt"
      = "uploads/2024-06-07/0a1b2c3d-report.txt"
    ∧ specClaimedKey 2024 6 7 "0a1b2c3d" "report.txt"
      = "uploads/2024/06/07/0a1b2c3d-report.txt"
    ∧ generateFileKey 2024 6 7 "0a1b2c3d" "report.txt"
      ≠ specClaimedKey 2024 6 7 "0a1b2c3d" "report.txt"
    ∧ (generateFileKey 2024 6 7 "0a1b2c3d" "report.txt").data.count '/' = 2
    ∧ (specClaimedKey 2024 6 7 "0a1b2c3d" "report.txt").data.count '/' = 4 := by
  refine ⟨?_, ?_, ?_, ?_, ?_⟩ <;> decide

/-- Every character a `collapseWhitespaceGo` run emits is a dash or a
non-whitespace character of the input. -/
theorem collapseWhitespaceGo_chars :
    ∀ (l : List Char) (b : Bool) (c : Char),
      c ∈ collapseWhitespaceGo b l →
      c = '-' ∨ (c ∈ l ∧ jsIsSpace c = false) := by
  intro l
  induction l with
  | nil => intro b c hc; simp [collapseWhitespaceGo] at hc
  | cons a rest ih =>
    intro b c hc
    by_cases hs : jsIsSpace a
    · cases b <;> simp only [collapseWhitespaceGo, hs, if_true, if_pos, if_neg,
        Bool.false_eq_true, ite_true, ite_false, List.mem_cons] at hc
      · rcases hc with rfl | hc
        · exact Or.inl rfl
        · rcases ih true c hc with h | ⟨h1, h2⟩
          · exact Or.inl h
          · exact Or.inr ⟨List.mem_cons_of_mem _ h1, h2⟩
      · rcases ih true c hc with h | ⟨h1, h2⟩
        · exact Or.inl h
        · exact Or.inr ⟨List.mem_cons_of_mem _ h1, h2⟩
    · simp only [collapseWhitespaceGo, hs, ite_false, List.mem_cons,
        if_neg, Bool.not_eq_true] at hc
      rcases hc with rfl | hc
      · exact Or.inr ⟨List.mem_cons_self _ _, by simpa using hs⟩
      · rcases ih false c hc with h | ⟨h1, h2⟩
        · exact Or.inl h
        · exact Or.inr ⟨List.mem_cons_of_mem _ h1, h2⟩

/-- After the dash of a whitespace run is emitted, the rest of the run is
skipped: for `ws` all-whitespace and `rest` empty or starting with a
non-whitespace character, `collapseWhitespaceGo true (ws ++ rest)` is
`collapseWhitespaceGo false rest`. -/
theorem collapseWhitespaceGo_skip :
    ∀ (ws rest : List Char), (∀ c ∈ ws, jsIsSpace c = true) →
      (∀ d ds, rest = d :: ds → jsIsSpace d = false) →
      collapseWhitespaceGo true (ws ++ rest) = collapseWhitespaceGo false rest := by
  intro ws
  induction ws with
  | nil =>
    intro rest _ hrest
    cases rest with
    | nil => rfl
    | cons d ds =>
      have hd := hrest d ds rfl
      simp [collapseWhitespaceGo, hd]
  | cons a ws' ih =>
    intro rest hws hrest
    have ha := hws a (List.mem_cons_self _ _)
    simp only [List.cons_append, collapseWhitespaceGo, ha, if_true, ite_true]
    exact ih rest (fun c hc => hws c (List.mem_cons_of_mem _ hc)) hrest

/-- **C8, amended.** For every date, random id and file name, the
generated key is `uploads/<YYYY>-<MM>-<DD>/<id>-<sanitized-name>` (one
date path segment, dash-separated — not the nested `<YYYY>/<MM>/<DD>/`
of the claim); the sanitized name contains only word characters, dots and
dashes (no whitespace, no slash — so the key has exactly its two `/`
separators); a whitespace run at the head of the remaining input collapses
to exactly one dash; and two keys generated for the same date and name
from distinct 8-character ids differ. -/
theorem generateFileKey_amended_form (year month day : Nat)
    (uid1 uid2 name : String) :
    generateFileKey year month day uid1 name
      = "uploads/" ++ toString year ++ "-" ++ padTwo month ++ "-" ++ padTwo day
        ++ "/" ++ uid1 ++ "-" ++ sanitizeFileName name
    ∧ (∀ c ∈ (sanitizeFileName name).data,
        jsIsWordChar c = true ∨ c = '.' ∨ c = '-')
    ∧ (∀ ws rest, ws ≠ [] → (∀ c ∈ ws, jsIsSpace c = true) →
        (∀ d ds, rest = d :: ds → jsIsSpace d = false) →
        collapseWhitespace (ws ++ rest) = '-' :: collapseWhitespace rest)
    ∧ (uid1.length = 8 → uid2.length = 8 → uid1 ≠ uid2 →
        generateFileKey year month day uid1 name
          ≠ generateFileKey year month day uid2 name) := by
  refine ⟨rfl, ?_, ?_, ?_⟩
  · intro c hc
    rcases collapseWhitespaceGo_chars _ false c hc with h | ⟨h1, h2⟩
    · exact Or.inr (Or.inr h)
    · have hk := List.of_mem_filter h1
      simp only [keepSafe, Bool.or_eq_true] at hk
      rcases hk with ((hw | hsp) | hd) | hda
      · exact Or.inl hw
      · rw [hsp] at h2
        cases h2
      · exact Or.inr (Or.inl (by simpa using hd))
      · exact Or.inr (Or.inr (by simpa using hda))
  · intro ws rest hne hws hrest
    cases ws with
    | nil => exact absurd rfl hne
    | cons a ws' =>
      have ha := hws a (List.mem_cons_self _ _)
      unfold collapseWhitespace
      simp only [List.cons_append, collapseWhitespaceGo, ha, if_true, ite_true,
        Bool.false_eq_true, ite_false]
      exact congrArg (List.cons '-') (collapseWhitespaceGo_skip ws' rest
        (fun c hc => hws c (List.mem_cons_of_mem _ hc)) hrest)
  · intro hl1 hl2 hne he
    apply hne
    have key_eq : ∀ uid : String, generateFileKey year month day uid name
        = ("uploads/" ++ toString year ++ "-" ++ padTwo month ++ "-"
            ++ padTwo day ++ "/")
          ++ (uid ++ ("-" ++ sanitizeFileName name)) := by
      intro uid
      unfold generateFileKey
      simp [String.append_assoc]
    rw [key_eq uid1, key_eq uid2] at he
    have hd := congrArg String.data he
    simp only [String.data_append] at hd
    have hd1 := List.append_cancel_left hd
    have hlen : uid1.data.length = uid2.data.length := by
      have e1 : uid1.length = uid1.data.length := rfl
      have e2 : uid2.length = uid2.data.length := rfl
      rw [← e1, ← e2, hl1, hl2]
    have := List.append_inj_left hd1 hlen
    exact String.ext this

/-- Witness for C8's amended theorem: the sanitized form of
`"my file (1).txt"` is `"my-file-1.txt"`, giving key
`uploads/2024-06-07/0a1b2c3d-my-file-1.txt`; and the leading-run collapse
and distinct-id conjuncts at concrete inputs. -/
theorem generateFileKey_amended_form_witness :
    generateFileKey 2024 6 7 "0a1b2c3d" "my file (1).txt"
      = "uploads/2024-06-07/0a1b2c3d-my-file-1.txt"
    ∧ collapseWhitespace ([' ', ' '] ++ ['b']) = '-' :: collapseWhitespace ['b']
    ∧ generateFileKey 2024 6 7 "0a1b2c3d" "a.txt"
        ≠ generateFileKey 2024 6 7 "ffffffff" "a.txt" := by
  have h1 := generateFileKey_amended_form 2024 6 7 "0a1b2c3d" "ffffffff" "my file (1).txt"
  have h2 := generateFileKey_amended_form 2024 6 7 "0a1b2c3d" "ffffffff" "a.txt"
  refine ⟨by decide, ?_, ?_⟩
  · exact h1.2.2.1 [' ', ' '] ['b'] (by decide) (by decide)
      (by intro d ds hds; injection hds with e1 e2; rw [← e1]; decide)
  · exact h2.2.2.2 rfl rfl (by decide)

end CloudFlux
